import Mathlib

/-!
Shallow embedding of the MinSplit backend (src/main.py, src/schemas.py).

Python strings are modelled as Lean `String`; the Python string primitives
used by the code (`str.lower`, `str.strip`, the `in` substring test,
`str.replace` on single punctuation characters and `str.split(".")`) are
embedded as executable functions over `List Char`.
-/

/-- Python `needle in hay` substring test, over character lists:
true iff `needle` occurs contiguously in `hay` (the empty needle always occurs). -/
def hasInfix : List Char → List Char → Bool
  | [], needle => needle.isEmpty
  | c :: rest, needle => needle.isPrefixOf (c :: rest) || hasInfix rest needle

/-- Python `sub in s` on strings. -/
def pyIn (sub s : String) : Bool := hasInfix s.data sub.data

/-- Python `str.lower()` (ASCII case folding, as in `Char.toLower`). -/
def pyLower (s : String) : String := ⟨s.data.map Char.toLower⟩

/-- Remove leading and trailing whitespace from a character list
(Python `str.strip()` at the character-list level). -/
def trimChars (l : List Char) : List Char :=
  ((l.dropWhile Char.isWhitespace).reverse.dropWhile Char.isWhitespace).reverse

/-- Python `str.strip()`. -/
def pyStrip (s : String) : String := ⟨trimChars s.data⟩

/-- The fixed topic → keyword table of `extract_tags` (src/main.py lines 52-61),
in the dict's insertion order. -/
def keywords : List (String × List String) :=
  [ ("career", ["job", "career", "offer", "promotion", "switch", "role"]),
    ("finance", ["salary", "money", "budget", "investment", "loan", "debt", "buy", "rent"]),
    ("relationships", ["relationship", "partner", "friend", "family", "marriage", "dating"]),
    ("health", ["health", "exercise", "diet", "sleep", "stress", "burnout"]),
    ("education", ["college", "course", "study", "studying", "degree", "learn", "bootcamp", "exam", "test", "math"]),
    ("relocation", ["move", "relocate", "city", "country"]),
    ("purchase", ["buy", "purchase", "upgrade", "phone", "car", "house"]),
    ("hobby", ["cricket", "football", "soccer", "game", "gaming", "sport", "sports", "music"]) ]

/-- `extract_tags` (src/main.py lines 49-67): lower-case the input, keep each
topic of the table whose keyword list has some member occurring as a substring,
in table order; fall back to `["general"]` when nothing matched. -/
def extract_tags (situation : String) : List String :=
  let s := pyLower situation
  let tags := (keywords.filter (fun p => p.2.any (fun kw => pyIn kw s))).map Prod.fst
  if tags.isEmpty then ["general"] else tags

/-- The punctuation normalization of `key_phrases`:
`s.replace("?", ".").replace("!", ".")`, character by character. -/
def normPunct (c : Char) : Char :=
  if c = '?' then '.' else if c = '!' then '.' else c

/-- `key_phrases` (src/main.py lines 70-80): strip, normalize `?`/`!` to `.`,
split on `.`, strip each chunk, keep the chunks whose length lies in [4,140];
if none survive and the stripped input is non-empty, use the whole stripped
input; finally take at most 4 chunks. -/
def key_phrases (situation : String) : List String :=
  let s := trimChars situation.data
  let parts := (((s.map normPunct).splitOn '.').map trimChars).filter
    (fun c => 4 ≤ c.length ∧ c.length ≤ 140)
  let parts := if parts.isEmpty && !s.isEmpty then [s] else parts
  (parts.take 4).map (fun l => (⟨l⟩ : String))

/-- `sentiment_hint` (src/main.py lines 83-91). -/
def sentiment_hint (situation : String) : String :=
  let s := pyLower situation
  let positive := ["excited", "happy", "love", "great", "amazing", "dream", "like"].any
    (fun w => pyIn w s)
  let negative := ["scared", "anxious", "worried", "stress", "burnout", "bad", "risky",
    "don\x27t feel like", "bored", "tired"].any (fun w => pyIn w s)
  if positive && !negative then "leans positive"
  else if negative && !positive then "leans cautious"
  else "mixed"

/-- The role of a transcript turn (src/schemas.py `Message.role`). -/
inductive Role where
  | user
  | emotional
  | logical
  | summary
deriving DecidableEq, Repr

/-- One transcript turn (src/schemas.py `Message`): the dicts appended to
`messages` in `generate_debate`. -/
structure Turn where
  role : Role
  content : String
  turn : Nat
deriving DecidableEq, Repr

/-- The pair loop of `generate_debate` (src/main.py lines 181-183): for every
zipped (emotional point, logical point) pair emit an emotional turn then a
logical turn, incrementing the turn counter by one per emitted turn,
starting from counter value `t`. -/
def pairTurns : List (String × String) → Nat → List Turn
  | [], _ => []
  | (ep, lp) :: rest, t =>
    ⟨Role.emotional, ep, t⟩ :: ⟨Role.logical, lp, t + 1⟩ :: pairTurns rest (t + 2)

/-- The transcript assembly of `generate_debate` (src/main.py lines 175-192):
user turn 0, the two openers at turns 1 and 2, the zipped point pairs from
counter value 3, the self-critique pair, and the summary turn carrying
`final_decision`.  After the pair loop the mutable counter of the source
equals `3 + 2 * pts.length`, which the suffix turns use explicitly here. -/
def assembleMsgs (s eo lo : String) (pts : List (String × String)) (es ls fd : String) :
    List Turn :=
  ⟨Role.user, s, 0⟩ :: ⟨Role.emotional, eo, 1⟩ :: ⟨Role.logical, lo, 2⟩ ::
    (pairTurns pts 3 ++
      [⟨Role.emotional, es, 3 + 2 * pts.length⟩,
       ⟨Role.logical, ls, 4 + 2 * pts.length⟩,
       ⟨Role.summary, fd, 5 + 2 * pts.length⟩])

/-- Exam-branch condition of `generate_debate` (src/main.py line 101):
`any(t in tags for t in ["education"]) and any(x in s.lower() for x in ["exam", "test", "math"])`. -/
def examBranch (tags : List String) (s : String) : Bool :=
  (["education"].any (fun t => tags.contains t)) &&
    (["exam", "test", "math"].any (fun x => pyIn x (pyLower s)))

/-- Exam emotional opener (src/main.py lines 106-108). -/
def examEmoOpen : String :=
  "You\x27re torn, and that\x27s human: the exam feels heavy and cricket feels alive. Let\x27s protect your future self without killing your present joy."

/-- Exam logical opener (src/main.py lines 109-111). -/
def examLogicOpen : String :=
  "There\x27s one night left. We need a plan that maximizes marginal score gain per minute and still respects recovery."

/-- Generic emotional opener templated on the tone (src/main.py lines 113-115). -/
def genericEmoOpen (tone : String) : String :=
  "I can feel how this " ++ tone ++ " decision sits with you. Let\x27s honor what your day-to-day will feel like, not just the headline outcome."

/-- Generic logical opener (src/main.py lines 116-118). -/
def genericLogicOpen : String :=
  "Let\x27s turn this into a clear decision model: objectives, constraints, options, and reversible next actions."

/-- First fixed exam emotional point (src/main.py line 126). -/
def examEmoPoint1 : String :=
  "Name the feeling right now: resistance, anxiety, or boredom? Naming reduces its grip. Give it compassion, not shame."

/-- Second fixed exam emotional point (src/main.py line 127). -/
def examEmoPoint2 : String :=
  "Imagine tomorrow morning you: calm, proud, and not panicked. What minimum tonight gives you that feeling?"

/-- First fixed exam logical point (src/main.py line 130). -/
def examLogPoint1 : String :=
  "Identify high-yield topics for a math exam: formulas, typical problem types, and error patterns. These dominate last-day ROI."

/-- Second fixed exam logical point (src/main.py line 131). -/
def examLogPoint2 : String :=
  "Do a 90-minute focus block: 3 x 25-minute Pomodoro on weak areas + 5-minute reviews. Then a 15-minute quick quiz to verify retention."

/-- Extra emotional point emitted when the situation mentions cricket
(src/main.py line 134). -/
def examCricketEmo : String :=
  "Cricket energizes you. Use it as a reward, not an escape: a short session after the focus block keeps motivation clean."

/-- Extra logical point emitted when the situation mentions cricket
(src/main.py line 135). -/
def examCricketLog : String :=
  "If-Then plan: If you finish the 90-minute block and one quiz, then play 30 minutes of cricket. Put gear out of sight until then."

/-- Exam emotional point templated on a user phrase (src/main.py line 138). -/
def examEmoPhrase (p : String) : String :=
  "When you think about \x27" ++ p ++ "\x27, what value matters most—competence, joy, or balance? Choose actions that respect that value."

/-- Exam logical point templated on a user phrase (src/main.py line 139). -/
def examLogPhrase (p : String) : String :=
  "For \x27" ++ p ++ "\x27, write 3 must-know items. Test yourself once. If recall < 80%, repeat once, else move on."

/-- Exam emotional self-critique (src/main.py line 141). -/
def examEmoSelf : String :=
  "I might be overprotecting comfort. One short discomfort now can protect tomorrow\x27s peace."

/-- Exam logical self-critique (src/main.py line 142). -/
def examLogSelf : String :=
  "I might be ignoring motivation. The plan must be doable—short, clear wins beat ideal schedules."

/-- Exam-branch action recommendation (src/main.py lines 144-146). -/
def examAction : String :=
  "Tonight: 90 minutes focused practice on key math topics (formulas, typical problems), then 30 minutes of cricket as a reward. Hydrate, prep bag, sleep >= 7 hours."

/-- Generic emotional point templated on a user phrase (src/main.py lines 149-151). -/
def genericEmoPhrase (p : String) : String :=
  "When you picture \x27" ++ p ++ "\x27, what emotion shows up first—ease, excitement, or tension? Follow the one that sustains your energy."

/-- Generic logical point templated on a user phrase (src/main.py lines 152-154). -/
def genericLogPhrase (p : String) : String :=
  "For \x27" ++ p ++ "\x27, list two options. Score each 1–5 on impact, effort, risk, and reversibility. Prefer the higher expected value with low irreversible risk."

/-- Fixed closing generic emotional point (src/main.py line 156). -/
def genericEmoClosing : String :=
  "Protect sleep, relationships, and identity—these are compounding assets."

/-- Fixed closing generic logical point (src/main.py line 157). -/
def genericLogClosing : String :=
  "Design a 7–14 day reversible test to gather evidence before a full commit."

/-- Generic emotional self-critique (src/main.py lines 158-160). -/
def genericEmoSelf : String :=
  "I might be romanticizing the ideal day. Let\x27s ground this by noting one concrete discomfort you\x27re willing to accept."

/-- Generic logical self-critique (src/main.py lines 161-163). -/
def genericLogSelf : String :=
  "I might be over-optimizing metrics. Let\x27s not ignore motivation and meaning—the plan must be energizing to be sustainable."

/-- Generic default action (src/main.py line 165). -/
def genericDefaultAction : String :=
  "Run a small, time-boxed experiment and measure real signals."

/-- Finance override action (src/main.py line 167). -/
def financeAction : String :=
  "Create a 30–60–90 budget, cap downside, and trial the change with strict guardrails."

/-- Career override action (src/main.py line 169). -/
def careerAction : String :=
  "Define three success metrics (learning, compensation, impact) and do a 2-week shadow or pilot."

/-- Relationships override action (src/main.py line 171). -/
def relationshipsAction : String :=
  "Schedule a candid conversation, co-create boundaries, and review in 2 weeks."

/-- Health override action (src/main.py line 173). -/
def healthAction : String :=
  "Adopt a minimal routine (sleep, meals, 20‑min walk) and review mood and energy after 10 days."

/-- The sequential action overwrite of the generic branch
(src/main.py lines 164-173): start from the default, then each check in the
fixed order finance, career, relationships, health unconditionally overwrites
the previous value when its tag is present. -/
def genericAction (tags : List String) : String :=
  let action := genericDefaultAction
  let action := if tags.contains "finance" then financeAction else action
  let action := if tags.contains "career" then careerAction else action
  let action := if tags.contains "relationships" then relationshipsAction else action
  let action := if tags.contains "health" then healthAction else action
  action

/-- The fixed summary prefix of `final_decision` (src/main.py lines 188-191). -/
def decisionPrefix : String :=
  "Balanced Decision: choose the path that preserves mental health and values while maximizing reversible upside. "

/-- `generate_debate` (src/main.py lines 94-194).  The source sets the opener,
point lists, self-critiques and action inside a single `if is_exam / else`;
here each piece selects on the same condition.  Point order matches the
source exactly: exam branch = two fixed points, then the optional cricket
pair, then one point per phrase; generic branch = one point per phrase, then
the fixed closing point. -/
def generate_debate (situation : String) : List Turn × String × List String :=
  let s := pyStrip situation
  let tags := extract_tags s
  let phrases := key_phrases s
  let tone := sentiment_hint s
  let is_exam := examBranch tags s
  let likes_cricket := pyIn "cricket" (pyLower s)
  let emo_open := if is_exam then examEmoOpen else genericEmoOpen tone
  let logic_open := if is_exam then examLogicOpen else genericLogicOpen
  let emo_points :=
    if is_exam then
      [examEmoPoint1, examEmoPoint2] ++ (if likes_cricket then [examCricketEmo] else []) ++
        phrases.map examEmoPhrase
    else
      phrases.map genericEmoPhrase ++ [genericEmoClosing]
  let log_points :=
    if is_exam then
      [examLogPoint1, examLogPoint2] ++ (if likes_cricket then [examCricketLog] else []) ++
        phrases.map examLogPhrase
    else
      phrases.map genericLogPhrase ++ [genericLogClosing]
  let emo_self := if is_exam then examEmoSelf else genericEmoSelf
  let log_self := if is_exam then examLogSelf else genericLogSelf
  let action := if is_exam then examAction else genericAction tags
  let final_decision := decisionPrefix ++ action
  (assembleMsgs s emo_open logic_open (emo_points.zip log_points) emo_self log_self
      final_decision,
    final_decision, tags)

/-- Spec-side restatement of the generic action selection, following the
claim wording: a priority table in which `health` wins over `relationships`,
which wins over `career`, which wins over `finance`, with the generic default
when none of the four tags is present.  To be compared with `genericAction`,
which embeds the source's sequential overwrite. -/
def priorityAction (tags : List String) : String :=
  if tags.contains "health" then healthAction
  else if tags.contains "relationships" then relationshipsAction
  else if tags.contains "career" then careerAction
  else if tags.contains "finance" then financeAction
  else genericDefaultAction

/-- An HTTP error as raised by the route handlers
(`HTTPException(status_code, detail)`). -/
structure ApiError where
  status : Nat
  detail : String
deriving DecidableEq, Repr

/-- The conversation record built by `create_debate` (src/main.py lines
214-221), without the two wall-clock timestamp fields, which come from the
process clock and carry no logical content. -/
structure ConversationRecord where
  situation : String
  messages : List Turn
  final_decision : String
  tags : List String
deriving DecidableEq, Repr

/-- The JSON body returned by `POST /api/debate` (src/main.py lines 224-230). -/
structure DebateResponse where
  conversation_id : String
  situation : String
  messages : List Turn
  final_decision : String
  tags : List String
deriving DecidableEq, Repr

/-- `create_debate`, the handler of `POST /api/debate` (src/main.py lines
207-230).  The store's `create_document` (the `database` module is not part
of this repository) is passed in as a function from the record to the new
id, and the second component of the result records the list of create calls
the handler performed, so that "no record is created" is observable.  The
guard mirrors `not req.situation or not req.situation.strip()`. -/
def create_debate (create_document : ConversationRecord → String) (situation : String) :
    Except ApiError DebateResponse × List ConversationRecord :=
  if situation.data.isEmpty || (pyStrip situation).data.isEmpty then
    (Except.error ⟨400, "Situation is required"⟩, [])
  else
    let r := generate_debate situation
    let conv : ConversationRecord := ⟨pyStrip situation, r.1, r.2.1, r.2.2⟩
    let conv_id := create_document conv
    (Except.ok ⟨conv_id, conv.situation, r.1, r.2.1, r.2.2⟩, [conv])

/-- `get_conversation`, the handler of `GET /api/conversations/{id}`
(src/main.py lines 255-265).  `ObjectId` parsing (from the external `bson`
module) is abstracted as a validity predicate on the id string, and
`db["conversation"].find_one` as a partial map from ids to stored records;
`serialize_doc` is the identity at this level of abstraction. -/
def get_conversation {α : Type} (validId : String → Bool) (find_one : String → Option α)
    (conversation_id : String) : Except ApiError α :=
  if validId conversation_id then
    match find_one conversation_id with
    | some doc => Except.ok doc
    | none => Except.error ⟨404, "Conversation not found"⟩
  else
    Except.error ⟨400, "Invalid conversation id"⟩

/-- Flatten a list of (emotional, logical) turn pairs into a transcript
segment, used to state the strict-pairing invariant. -/
def pairFlat : List (Turn × Turn) → List Turn
  | [] => []
  | (a, b) :: r => a :: b :: pairFlat r

theorem pairTurns_length (l : List (String × String)) (t : Nat) :
    (pairTurns l t).length = 2 * l.length := by
  induction l generalizing t with
  | nil => rfl
  | cons hd tl ih =>
    obtain ⟨ep, lp⟩ := hd
    simp [pairTurns, ih, List.length_cons]
    omega

theorem pairTurns_map_turn (l : List (String × String)) (t : Nat) :
    (pairTurns l t).map Turn.turn = List.range' t (2 * l.length) := by
  induction l generalizing t with
  | nil => simp [pairTurns]
  | cons hd tl ih =>
    obtain ⟨ep, lp⟩ := hd
    have h4 : 2 * (tl.length + 1) = (2 * tl.length + 1) + 1 := by omega
    simp only [pairTurns, List.map_cons, List.length_cons, h4, List.range'_succ]
    simp [ih (t + 2)]

theorem pairTurns_roles (l : List (String × String)) (t : Nat) :
    ∀ m ∈ pairTurns l t, m.role = Role.emotional ∨ m.role = Role.logical := by
  induction l generalizing t with
  | nil => simp [pairTurns]
  | cons hd tl ih =>
    obtain ⟨ep, lp⟩ := hd
    intro m hm
    simp only [pairTurns, List.mem_cons] at hm
    rcases hm with rfl | rfl | hm
    · exact Or.inl rfl
    · exact Or.inr rfl
    · exact ih (t + 2) m hm

theorem pairTurns_eq_pairFlat (l : List (String × String)) (t : Nat) :
    ∃ ps : List (Turn × Turn), pairTurns l t = pairFlat ps ∧
      ∀ q ∈ ps, q.1.role = Role.emotional ∧ q.2.role = Role.logical := by
  induction l generalizing t with
  | nil => exact ⟨[], rfl, by simp⟩
  | cons hd tl ih =>
    obtain ⟨ep, lp⟩ := hd
    obtain ⟨ps, hps, hroles⟩ := ih (t + 2)
    refine ⟨(⟨Role.emotional, ep, t⟩, ⟨Role.logical, lp, t + 1⟩) :: ps, ?_, ?_⟩
    · simp [pairTurns, pairFlat, hps]
    · intro q hq
      rcases List.mem_cons.mp hq with rfl | hq
      · exact ⟨rfl, rfl⟩
      · exact hroles q hq

theorem pairFlat_append (a b : List (Turn × Turn)) :
    pairFlat (a ++ b) = pairFlat a ++ pairFlat b := by
  induction a with
  | nil => rfl
  | cons hd tl ih =>
    obtain ⟨x, y⟩ := hd
    simp [pairFlat, ih]

theorem assembleMsgs_length (s eo lo : String) (pts : List (String × String)) (es ls fd : String) :
    (assembleMsgs s eo lo pts es ls fd).length = 6 + 2 * pts.length := by
  simp [assembleMsgs, pairTurns_length]
  omega

theorem range'_three (a : Nat) : List.range' a 3 = [a, a + 1, a + 2] := rfl

theorem range'_cons3 (k : Nat) : List.range' 0 (k + 3) = 0 :: 1 :: 2 :: List.range' 3 k := by
  rw [← List.range'_append_1 0 3 k]
  rfl

theorem assembleMsgs_map_turn (s eo lo : String) (pts : List (String × String))
    (es ls fd : String) :
    (assembleMsgs s eo lo pts es ls fd).map Turn.turn = List.range (6 + 2 * pts.length) := by
  have h1 : (assembleMsgs s eo lo pts es ls fd).map Turn.turn
      = 0 :: 1 :: 2 :: (List.range' 3 (2 * pts.length) ++ List.range' (3 + 2 * pts.length) 3) := by
    simp only [assembleMsgs, List.map_cons, List.map_append, pairTurns_map_turn, range'_three]
    rw [show 4 + 2 * pts.length = 3 + 2 * pts.length + 1 by omega,
      show 5 + 2 * pts.length = 3 + 2 * pts.length + 2 by omega]
    rfl
  rw [h1, List.range'_append_1 3 (2 * pts.length) 3, List.range_eq_range',
    show 6 + 2 * pts.length = (3 + 2 * pts.length) + 3 by omega, range'_cons3]

theorem assembleMsgs_concat (s eo lo : String) (pts : List (String × String))
    (es ls fd : String) :
    assembleMsgs s eo lo pts es ls fd =
      (⟨Role.user, s, 0⟩ :: ⟨Role.emotional, eo, 1⟩ :: ⟨Role.logical, lo, 2⟩ ::
        (pairTurns pts 3 ++
          [⟨Role.emotional, es, 3 + 2 * pts.length⟩, ⟨Role.logical, ls, 4 + 2 * pts.length⟩]))
      ++ [⟨Role.summary, fd, 5 + 2 * pts.length⟩] := by
  simp [assembleMsgs]

theorem assembleMsgs_getLast (s eo lo : String) (pts : List (String × String))
    (es ls fd : String) :
    (assembleMsgs s eo lo pts es ls fd).getLast? =
      some ⟨Role.summary, fd, 5 + 2 * pts.length⟩ := by
  rw [assembleMsgs_concat, List.getLast?_concat]

theorem assembleMsgs_middle (s eo lo : String) (pts : List (String × String))
    (es ls fd : String) :
    (assembleMsgs s eo lo pts es ls fd).dropLast.drop 1 =
      ⟨Role.emotional, eo, 1⟩ :: ⟨Role.logical, lo, 2⟩ ::
        (pairTurns pts 3 ++
          [⟨Role.emotional, es, 3 + 2 * pts.length⟩,
           ⟨Role.logical, ls, 4 + 2 * pts.length⟩]) := by
  rw [assembleMsgs_concat, List.dropLast_concat]
  rfl

theorem assembleMsgs_count_user (s eo lo : String) (pts : List (String × String))
    (es ls fd : String) :
    ((assembleMsgs s eo lo pts es ls fd).map Turn.role).count Role.user = 1 := by
  have hz : (List.map Turn.role (pairTurns pts 3)).count Role.user = 0 := by
    rw [List.count_eq_zero]
    intro hmem
    obtain ⟨m, hm, hrole⟩ := List.mem_map.mp hmem
    rcases pairTurns_roles pts 3 m hm with h | h <;> simp [h] at hrole
  simp [assembleMsgs, List.count_cons, List.count_append, hz]

theorem assembleMsgs_count_summary (s eo lo : String) (pts : List (String × String))
    (es ls fd : String) :
    ((assembleMsgs s eo lo pts es ls fd).map Turn.role).count Role.summary = 1 := by
  have hz : (List.map Turn.role (pairTurns pts 3)).count Role.summary = 0 := by
    rw [List.count_eq_zero]
    intro hmem
    obtain ⟨m, hm, hrole⟩ := List.mem_map.mp hmem
    rcases pairTurns_roles pts 3 m hm with h | h <;> simp [h] at hrole
  simp [assembleMsgs, List.count_cons, List.count_append, hz]

theorem extract_tags_ne_nil (s : String) : extract_tags s ≠ [] := by
  simp only [extract_tags]
  split
  · simp
  · next h => simp_all [List.isEmpty_iff]

theorem generate_debate_shape (situation : String) :
    ∃ eo lo pts es ls,
      1 ≤ List.length pts ∧
      (generate_debate situation).1 =
        assembleMsgs (pyStrip situation) eo lo pts es ls ((generate_debate situation).2.1) ∧
      (generate_debate situation).2.2 = extract_tags (pyStrip situation) := by
  cases h : examBranch (extract_tags (pyStrip situation)) (pyStrip situation) with
  | false =>
    refine ⟨genericEmoOpen (sentiment_hint (pyStrip situation)), genericLogicOpen,
      ((key_phrases (pyStrip situation)).map genericEmoPhrase ++ [genericEmoClosing]).zip
        ((key_phrases (pyStrip situation)).map genericLogPhrase ++ [genericLogClosing]),
      genericEmoSelf, genericLogSelf, ?_, ?_, ?_⟩
    · simp [List.length_zip]
    · simp [generate_debate, h]
    · simp [generate_debate, h]
  | true =>
    cases hc : pyIn "cricket" (pyLower (pyStrip situation)) with
    | false =>
      refine ⟨examEmoOpen, examLogicOpen,
        ([examEmoPoint1, examEmoPoint2] ++ [] ++
            (key_phrases (pyStrip situation)).map examEmoPhrase).zip
          ([examLogPoint1, examLogPoint2] ++ [] ++
            (key_phrases (pyStrip situation)).map examLogPhrase),
        examEmoSelf, examLogSelf, ?_, ?_, ?_⟩
      · simp [List.length_zip]
      · simp [generate_debate, h, hc]
      · simp [generate_debate, h, hc]
    | true =>
      refine ⟨examEmoOpen, examLogicOpen,
        ([examEmoPoint1, examEmoPoint2] ++ [examCricketEmo] ++
            (key_phrases (pyStrip situation)).map examEmoPhrase).zip
          ([examLogPoint1, examLogPoint2] ++ [examCricketLog] ++
            (key_phrases (pyStrip situation)).map examLogPhrase),
        examEmoSelf, examLogSelf, ?_, ?_, ?_⟩
      · simp [List.length_zip]
      · simp [generate_debate, h, hc]
      · simp [generate_debate, h, hc]

theorem assembleMsgs_getLast_pred (s eo lo : String) (pts : List (String × String))
    (es ls fd : String) :
    (assembleMsgs s eo lo pts es ls fd).getLast? =
      some ⟨Role.summary, fd, (assembleMsgs s eo lo pts es ls fd).length - 1⟩ := by
  rw [assembleMsgs_length, show (6 + 2 * pts.length) - 1 = 5 + 2 * pts.length by omega,
    assembleMsgs_getLast]

/-- C1: for every input situation string, the messages sequence returned by
`generate_debate` begins with exactly one user turn (turn 0, content the
trimmed situation), ends with exactly one summary turn whose content equals
the returned `final_decision`, and the turns strictly between them decompose
into pairs of one emotional turn immediately followed by one logical turn. -/
theorem generate_debate_transcript_invariant (situation : String) :
    ((generate_debate situation).1.head? = some ⟨Role.user, pyStrip situation, 0⟩) ∧
    ((generate_debate situation).1.getLast? =
      some ⟨Role.summary, (generate_debate situation).2.1,
        (generate_debate situation).1.length - 1⟩) ∧
    (((generate_debate situation).1.map Turn.role).count Role.user = 1) ∧
    (((generate_debate situation).1.map Turn.role).count Role.summary = 1) ∧
    (∃ ps : List (Turn × Turn),
      (generate_debate situation).1.dropLast.drop 1 = pairFlat ps ∧
      ∀ q ∈ ps, q.1.role = Role.emotional ∧ q.2.role = Role.logical) := by
  obtain ⟨eo, lo, pts, es, ls, hlen, hmsgs, htags⟩ := generate_debate_shape situation
  rw [hmsgs]
  refine ⟨rfl, assembleMsgs_getLast_pred _ _ _ _ _ _ _,
    assembleMsgs_count_user _ _ _ _ _ _ _, assembleMsgs_count_summary _ _ _ _ _ _ _, ?_⟩
  rw [assembleMsgs_middle]
  obtain ⟨ps, hps, hroles⟩ := pairTurns_eq_pairFlat pts 3
  refine ⟨(⟨Role.emotional, eo, 1⟩, ⟨Role.logical, lo, 2⟩) ::
    (ps ++ [(⟨Role.emotional, es, 3 + 2 * pts.length⟩,
             ⟨Role.logical, ls, 4 + 2 * pts.length⟩)]), ?_, ?_⟩
  · simp [pairFlat, pairFlat_append, hps]
  · intro q hq
    rcases List.mem_cons.mp hq with rfl | hq
    · exact ⟨rfl, rfl⟩
    · rcases List.mem_append.mp hq with hq | hq
      · exact hroles q hq
      · rcases List.mem_singleton.mp hq with rfl
        exact ⟨rfl, rfl⟩

/-- C2: for every input situation string, the `turn` fields of the returned
messages are exactly `0, 1, ..., len - 1` in emission order. -/
theorem generate_debate_turn_numbers (situation : String) :
    (generate_debate situation).1.map Turn.turn =
      List.range (generate_debate situation).1.length := by
  obtain ⟨eo, lo, pts, es, ls, hlen, hmsgs, htags⟩ := generate_debate_shape situation
  rw [hmsgs, assembleMsgs_map_turn, assembleMsgs_length]

/-- C9: `generate_debate` is total with no error branch: every string input,
including empty and whitespace-only ones, yields a fully formed transcript
(at least the opener pair, one point pair, the self-critique pair, plus user
and summary turns), a final decision carried by the last turn, and a
non-empty tag list; the user turn carries the trimmed situation as content,
which is empty for a trimmed-empty situation. -/
theorem generate_debate_total (situation : String) :
    8 ≤ (generate_debate situation).1.length ∧
    (generate_debate situation).1.head? = some ⟨Role.user, pyStrip situation, 0⟩ ∧
    (generate_debate situation).1.getLast? =
      some ⟨Role.summary, (generate_debate situation).2.1,
        (generate_debate situation).1.length - 1⟩ ∧
    (generate_debate situation).2.2 ≠ [] := by
  obtain ⟨eo, lo, pts, es, ls, hlen, hmsgs, htags⟩ := generate_debate_shape situation
  rw [hmsgs, htags]
  refine ⟨?_, rfl, assembleMsgs_getLast_pred _ _ _ _ _ _ _, extract_tags_ne_nil _⟩
  rw [assembleMsgs_length]
  omega

/-- C3: for every input string, the tag list is never empty; it equals exactly
`["general"]` iff no keyword of any topic of the fixed table occurs as a
substring of the lower-cased input; otherwise it is exactly the list of
matching topics in the table's fixed iteration order. -/
theorem extract_tags_characterization (situation : String) :
    extract_tags situation ≠ [] ∧
    (extract_tags situation = ["general"] ↔
      ∀ p ∈ keywords, ∀ kw ∈ p.2, pyIn kw (pyLower situation) = false) ∧
    (extract_tags situation = ["general"] ∨
      extract_tags situation =
        (keywords.filter (fun p => p.2.any (fun kw => pyIn kw (pyLower situation)))).map
          Prod.fst) := by
  refine ⟨extract_tags_ne_nil situation, ⟨?_, ?_⟩, ?_⟩
  · intro h p hp kw hkw
    by_contra hcon
    rw [Bool.not_eq_false] at hcon
    have hpfil : p ∈ keywords.filter (fun p => p.2.any (fun kw => pyIn kw (pyLower situation))) :=
      List.mem_filter.mpr ⟨hp, List.any_eq_true.mpr ⟨kw, hkw, hcon⟩⟩
    have hM : p.1 ∈
        (keywords.filter (fun p => p.2.any (fun kw => pyIn kw (pyLower situation)))).map
          Prod.fst :=
      List.mem_map_of_mem _ hpfil
    have hne : ¬ ((keywords.filter
        (fun p => p.2.any (fun kw => pyIn kw (pyLower situation)))).map Prod.fst).isEmpty = true := by
      intro hic
      rw [List.isEmpty_iff] at hic
      rw [hic] at hM
      exact absurd hM (List.not_mem_nil _)
    have heq : extract_tags situation =
        (keywords.filter (fun p => p.2.any (fun kw => pyIn kw (pyLower situation)))).map
          Prod.fst := by
      simp only [extract_tags]
      rw [if_neg hne]
    rw [h] at heq
    rw [← heq] at hM
    have hp1 : p.1 = "general" := List.mem_singleton.mp hM
    have hgen : ("general" : String) ∈ keywords.map Prod.fst :=
      hp1 ▸ List.mem_map_of_mem _ hp
    exact absurd hgen (by decide)
  · intro h
    have hfil : keywords.filter (fun p => p.2.any (fun kw => pyIn kw (pyLower situation))) = [] := by
      rw [List.filter_eq_nil_iff]
      intro p hp
      simp only [Bool.not_eq_true, List.any_eq_false]
      intro kw hkw
      simp [h p hp kw hkw]
    simp [extract_tags, hfil]
  · simp only [extract_tags]
    split
    · exact Or.inl rfl
    · exact Or.inr rfl

/-- C4: in the generic (non-exam) branch the action appended to
`final_decision` is the sequential overwrite in the fixed order finance,
career, relationships, health, so the last matching check wins (health over
relationships over career over finance) and the default is used when none of
the four tags is present: the overwrite agrees with the explicit priority
table `priorityAction` on every tag list, and the returned decision is the
fixed prefix followed by that action. -/
theorem generic_action_last_match_wins (situation : String)
    (h : examBranch (extract_tags (pyStrip situation)) (pyStrip situation) = false) :
    (∀ tags : List String, genericAction tags = priorityAction tags) ∧
    (generate_debate situation).2.1 =
      decisionPrefix ++ priorityAction (extract_tags (pyStrip situation)) := by
  refine ⟨fun tags => rfl, ?_⟩
  simp [generate_debate, h]
  rfl

theorem generic_action_last_match_wins_witness :
    examBranch (extract_tags (pyStrip "Should I buy a house or rent?"))
        (pyStrip "Should I buy a house or rent?") = false ∧
      ((∀ tags : List String, genericAction tags = priorityAction tags) ∧
        (generate_debate "Should I buy a house or rent?").2.1 =
          decisionPrefix ++
            priorityAction (extract_tags (pyStrip "Should I buy a house or rent?"))) :=
  ⟨by decide, generic_action_last_match_wins "Should I buy a house or rent?" (by decide)⟩

theorem education_mem_extract_tags (s : String)
    (h : pyIn "exam" (pyLower s) = true ∨ pyIn "test" (pyLower s) = true ∨
      pyIn "math" (pyLower s) = true) :
    "education" ∈ extract_tags s := by
  have hpin : (("education",
      ["college", "course", "study", "studying", "degree", "learn", "bootcamp", "exam",
        "test", "math"]) : String × List String) ∈ keywords := by decide
  have hpred : (["college", "course", "study", "studying", "degree", "learn", "bootcamp",
      "exam", "test", "math"] : List String).any (fun kw => pyIn kw (pyLower s)) = true := by
    rw [List.any_eq_true]
    rcases h with h | h | h
    · exact ⟨"exam", by decide, h⟩
    · exact ⟨"test", by decide, h⟩
    · exact ⟨"math", by decide, h⟩
  have hM : "education" ∈
      (keywords.filter (fun p => p.2.any (fun kw => pyIn kw (pyLower s)))).map Prod.fst :=
    List.mem_map_of_mem _ (List.mem_filter.mpr ⟨hpin, hpred⟩)
  have hne : ¬ ((keywords.filter
      (fun p => p.2.any (fun kw => pyIn kw (pyLower s)))).map Prod.fst).isEmpty = true := by
    intro hic
    rw [List.isEmpty_iff] at hic
    rw [hic] at hM
    exact absurd hM (List.not_mem_nil _)
  simp only [extract_tags]
  rw [if_neg hne]
  exact hM

/-- C10: the exam-branch condition is equivalent to the simpler condition
that the lower-cased trimmed situation contains "exam", "test" or "math":
the education-tag conjunct is redundant because each of those three strings
is itself an education keyword, so it already forces the education tag. -/
theorem examBranch_education_redundant (situation : String) :
    examBranch (extract_tags (pyStrip situation)) (pyStrip situation) =
      (pyIn "exam" (pyLower (pyStrip situation)) ||
        pyIn "test" (pyLower (pyStrip situation)) ||
        pyIn "math" (pyLower (pyStrip situation))) := by
  cases hE : pyIn "exam" (pyLower (pyStrip situation)) with
  | true =>
    have hmem := education_mem_extract_tags (pyStrip situation) (Or.inl hE)
    simp [examBranch, hE, hmem]
  | false =>
    cases hT : pyIn "test" (pyLower (pyStrip situation)) with
    | true =>
      have hmem := education_mem_extract_tags (pyStrip situation) (Or.inr (Or.inl hT))
      simp [examBranch, hE, hT, hmem]
    | false =>
      cases hM : pyIn "math" (pyLower (pyStrip situation)) with
      | true =>
        have hmem := education_mem_extract_tags (pyStrip situation) (Or.inr (Or.inr hM))
        simp [examBranch, hE, hT, hM, hmem]
      | false =>
        simp [examBranch, hE, hT, hM]

/-- C6 counterexample: on the spec's own example input, `key_phrases` does
not return the list claimed by the spec — the exclamation mark of the last
chunk is normalized to a period before splitting, so the surviving chunk is
"It pays more" without the trailing "!". -/
theorem key_phrases_example_ne_claimed :
    key_phrases "I feel anxious about my job. Should I take the offer? It pays more!" ≠
      ["I feel anxious about my job", "Should I take the offer", "It pays more!"] := by
  decide

/-- C6 (amended): on the example input the phrase list is
`["I feel anxious about my job", "Should I take the offer", "It pays more"]`
and every returned chunk's length lies in the closed interval [4,140]. -/
theorem key_phrases_example :
    key_phrases "I feel anxious about my job. Should I take the offer? It pays more!" =
      ["I feel anxious about my job", "Should I take the offer", "It pays more"] ∧
    ∀ c ∈ key_phrases "I feel anxious about my job. Should I take the offer? It pays more!",
      4 ≤ c.length ∧ c.length ≤ 140 := by
  constructor
  · decide
  · decide

/-- C7: for every id string, `GET /api/conversations/{id}` either returns the
full stored conversation record (exactly when the id is well-formed and
present in the store), or fails with the spec's NotFound class of client
errors (status 400 for a malformed id, 404 for a missing one), the latter
exactly when the id is malformed or missing. -/
theorem get_conversation_not_found_behavior {α : Type} (validId : String → Bool)
    (find_one : String → Option α) (cid : String) :
    (∀ doc : α, get_conversation validId find_one cid = Except.ok doc ↔
      (validId cid = true ∧ find_one cid = some doc)) ∧
    ((∃ e, get_conversation validId find_one cid = Except.error e ∧
        400 ≤ e.status ∧ e.status < 500) ↔
      (validId cid = false ∨ find_one cid = none)) := by
  cases hv : validId cid with
  | false =>
    constructor
    · intro doc
      simp [get_conversation, hv]
    · constructor
      · intro _
        exact Or.inl rfl
      · intro _
        exact ⟨⟨400, "Invalid conversation id"⟩, by simp [get_conversation, hv]⟩
  | true =>
    cases hf : find_one cid with
    | none =>
      constructor
      · intro doc
        simp [get_conversation, hv, hf]
      · constructor
        · intro _
          exact Or.inr rfl
        · intro _
          exact ⟨⟨404, "Conversation not found"⟩, by simp [get_conversation, hv, hf]⟩
    | some doc' =>
      constructor
      · intro doc
        simp [get_conversation, hv, hf, eq_comm]
      · constructor
        · rintro ⟨e, he, _⟩
          simp [get_conversation, hv, hf] at he
        · rintro (h | h)
          · exact absurd h (by decide)
          · exact Option.noConfusion h

theorem trimChars_eq_nil_iff (l : List Char) :
    trimChars l = [] ↔ ∀ c ∈ l, c.isWhitespace = true := by
  unfold trimChars
  rw [List.reverse_eq_nil_iff, List.dropWhile_eq_nil_iff]
  constructor
  · intro h c hc
    rcases List.mem_append.mp
        ((List.takeWhile_append_dropWhile Char.isWhitespace l) ▸ hc) with hc' | hc'
    · exact List.mem_takeWhile_imp hc'
    · exact h c (List.mem_reverse.mpr hc')
  · intro h c hc
    exact h c ((List.dropWhile_sublist Char.isWhitespace).mem (List.mem_reverse.mp hc))

/-- C8: `POST /api/debate` rejects an empty or whitespace-only situation with
a 400 client error and performs no store create call; for every other
situation it runs the generator, persists exactly the one resulting record,
and returns the conversation id together with the (trimmed) situation, the
messages, the final decision and the tags.  The guard's two Python truthiness
checks collapse to "the trimmed situation is empty", which is equivalent to
the input being all whitespace. -/
theorem create_debate_behavior (create_document : ConversationRecord → String)
    (situation : String) :
    (create_debate create_document situation =
      if (pyStrip situation).data.isEmpty then
        (Except.error ⟨400, "Situation is required"⟩, [])
      else
        (Except.ok ⟨create_document ⟨pyStrip situation, (generate_debate situation).1,
            (generate_debate situation).2.1, (generate_debate situation).2.2⟩,
          pyStrip situation, (generate_debate situation).1, (generate_debate situation).2.1,
          (generate_debate situation).2.2⟩,
         [⟨pyStrip situation, (generate_debate situation).1, (generate_debate situation).2.1,
           (generate_debate situation).2.2⟩])) ∧
    ((pyStrip situation).data.isEmpty = true ↔
      ∀ c ∈ situation.data, c.isWhitespace = true) := by
  constructor
  · have hguard : (situation.data.isEmpty || (pyStrip situation).data.isEmpty) =
        (pyStrip situation).data.isEmpty := by
      cases he : situation.data.isEmpty with
      | false => simp
      | true =>
        have hnil : situation.data = [] := List.isEmpty_iff.mp he
        simp [pyStrip, trimChars, hnil]
    rw [create_debate, hguard]
  · rw [List.isEmpty_iff]
    exact trimChars_eq_nil_iff situation.data

theorem hasInfix_iff (hay needle : List Char) :
    hasInfix hay needle = true ↔ needle <:+: hay := by
  induction hay with
  | nil => simp [hasInfix, List.isEmpty_iff]
  | cons c rest ih => simp [hasInfix, ih, List.infix_cons_iff]

theorem infix_dropWhile {α : Type} (p : α → Bool) (c : α) (cs m : List α)
    (hc : p c = false) (h : (c :: cs) <:+: m) : (c :: cs) <:+: m.dropWhile p := by
  obtain ⟨s, t, hst⟩ := h
  subst hst
  rw [List.append_assoc, List.dropWhile_append]
  split
  · rw [List.cons_append, List.dropWhile_cons, hc]
    simp only [Bool.false_eq_true, if_false]
    exact ⟨[], t, by simp⟩
  · exact ⟨List.dropWhile p s, t, by simp⟩

theorem infix_trimChars (needle m : List Char)
    (hws : ∀ c ∈ needle, c.isWhitespace = false) (h : needle <:+: m) :
    needle <:+: trimChars m := by
  cases needle with
  | nil => exact ⟨[], trimChars m, by simp⟩
  | cons c cs =>
    have hc : Char.isWhitespace c = false := hws c (List.mem_cons_self c cs)
    have s1 : (c :: cs) <:+: m.dropWhile Char.isWhitespace :=
      infix_dropWhile Char.isWhitespace c cs m hc h
    have s2 : (c :: cs).reverse <:+: (m.dropWhile Char.isWhitespace).reverse :=
      List.reverse_infix.mpr s1
    obtain ⟨d, ds, hrev⟩ : ∃ d ds, (c :: cs).reverse = d :: ds := by
      cases hr : (c :: cs).reverse with
      | nil => exact absurd (List.reverse_eq_nil_iff.mp hr) (by simp)
      | cons d ds => exact ⟨d, ds, rfl⟩
    have hd : Char.isWhitespace d = false := by
      have hmem : d ∈ (c :: cs).reverse := by
        rw [hrev]
        exact List.mem_cons_self d ds
      exact hws d (List.mem_reverse.mp hmem)
    rw [hrev] at s2
    have s3 : (d :: ds) <:+:
        ((m.dropWhile Char.isWhitespace).reverse.dropWhile Char.isWhitespace) :=
      infix_dropWhile Char.isWhitespace d ds _ hd s2
    have s4 : (d :: ds).reverse <:+: trimChars m := by
      unfold trimChars
      exact List.reverse_infix.mpr s3
    rw [← hrev, List.reverse_reverse] at s4
    exact s4

theorem ws_ofNat_letters :
    ∀ n : Nat, n < 123 → 97 ≤ n → (Char.ofNat n).isWhitespace = false := by decide

theorem isWhitespace_toLower (c : Char) :
    (Char.toLower c).isWhitespace = c.isWhitespace := by
  show (if c.toNat ≥ 65 ∧ c.toNat ≤ 90 then Char.ofNat (c.toNat + 32) else c).isWhitespace =
    c.isWhitespace
  by_cases h : c.toNat ≥ 65 ∧ c.toNat ≤ 90
  · rw [if_pos h]
    have h1 : (Char.ofNat (c.toNat + 32)).isWhitespace = false :=
      ws_ofNat_letters (c.toNat + 32) (by omega) (by omega)
    have h2 : c.isWhitespace = false := by
      by_contra hcon
      rw [Bool.not_eq_false] at hcon
      have hd : ((c = ' ' ∨ c = '\t') ∨ c = '\r') ∨ c = '\n' := by
        simpa [Char.isWhitespace] using hcon
      rcases hd with ((rfl | rfl) | rfl) | rfl <;> revert h <;> decide
    rw [h1, h2]
  · rw [if_neg h]

theorem trimChars_map_toLower (l : List Char) :
    trimChars (l.map Char.toLower) = (trimChars l).map Char.toLower := by
  have hcomp : (Char.isWhitespace ∘ Char.toLower) = Char.isWhitespace :=
    funext isWhitespace_toLower
  unfold trimChars
  rw [List.dropWhile_map, hcomp, ← List.map_reverse, List.dropWhile_map, hcomp, ← List.map_reverse]

theorem pyIn_pyLower_strip (kw situation : String)
    (hkw : ∀ c ∈ kw.data, c.isWhitespace = false)
    (h : pyIn kw (pyLower situation) = true) :
    pyIn kw (pyLower (pyStrip situation)) = true := by
  rw [pyIn, hasInfix_iff] at h ⊢
  have h2 : kw.data <:+: trimChars (situation.data.map Char.toLower) :=
    infix_trimChars kw.data _ hkw h
  rw [trimChars_map_toLower] at h2
  exact h2

/-- C5: for every situation whose lower-cased text contains "cricket" and at
least one of "exam", "test", "math" (so the education tag is triggered), the
exam branch is taken and the transcript contains the cricket-specific reward
pair: one extra emotional point (cricket-as-reward) immediately followed by
the paired logical point (if-then contingency plan). -/
theorem generate_debate_cricket_reward (situation : String)
    (h1 : pyIn "cricket" (pyLower situation) = true)
    (h2 : pyIn "exam" (pyLower situation) = true ∨ pyIn "test" (pyLower situation) = true ∨
      pyIn "math" (pyLower situation) = true) :
    examBranch (extract_tags (pyStrip situation)) (pyStrip situation) = true ∧
    "education" ∈ (generate_debate situation).2.2 ∧
    ∃ i, (generate_debate situation).1.get? i = some ⟨Role.emotional, examCricketEmo, i⟩ ∧
      (generate_debate situation).1.get? (i + 1) =
        some ⟨Role.logical, examCricketLog, i + 1⟩ := by
  have hc : pyIn "cricket" (pyLower (pyStrip situation)) = true :=
    pyIn_pyLower_strip _ _ (by decide) h1
  have h2' : pyIn "exam" (pyLower (pyStrip situation)) = true ∨
      pyIn "test" (pyLower (pyStrip situation)) = true ∨
      pyIn "math" (pyLower (pyStrip situation)) = true := by
    rcases h2 with h | h | h
    · exact Or.inl (pyIn_pyLower_strip _ _ (by decide) h)
    · exact Or.inr (Or.inl (pyIn_pyLower_strip _ _ (by decide) h))
    · exact Or.inr (Or.inr (pyIn_pyLower_strip _ _ (by decide) h))
  have hedu : "education" ∈ extract_tags (pyStrip situation) :=
    education_mem_extract_tags _ h2'
  have hexam : examBranch (extract_tags (pyStrip situation)) (pyStrip situation) = true := by
    simp only [examBranch, List.any_cons, List.any_nil, Bool.or_false, Bool.and_eq_true]
    constructor
    · exact List.elem_iff.mpr hedu
    · rcases h2' with h | h | h <;> simp [h]
  obtain ⟨eo0, lo0, pts0, es0, ls0, hlen0, hm0, htags0⟩ := generate_debate_shape situation
  have hgd : (generate_debate situation).1 =
      assembleMsgs (pyStrip situation) examEmoOpen examLogicOpen
        (([examEmoPoint1, examEmoPoint2] ++ [examCricketEmo] ++
            (key_phrases (pyStrip situation)).map examEmoPhrase).zip
          ([examLogPoint1, examLogPoint2] ++ [examCricketLog] ++
            (key_phrases (pyStrip situation)).map examLogPhrase))
        examEmoSelf examLogSelf (decisionPrefix ++ examAction) := by
    simp only [generate_debate, hexam, hc, if_true]
  refine ⟨hexam, ?_, 7, ?_, ?_⟩
  · rw [htags0]
    exact hedu
  · rw [hgd]
    rfl
  · rw [hgd]
    rfl

theorem generate_debate_cricket_reward_witness :
    (pyIn "cricket" (pyLower "I have a math exam tomorrow but I want to play cricket") = true ∧
      pyIn "math" (pyLower "I have a math exam tomorrow but I want to play cricket") = true) ∧
    (examBranch
        (extract_tags (pyStrip "I have a math exam tomorrow but I want to play cricket"))
        (pyStrip "I have a math exam tomorrow but I want to play cricket") = true ∧
      "education" ∈
        (generate_debate "I have a math exam tomorrow but I want to play cricket").2.2 ∧
      ∃ i, (generate_debate "I have a math exam tomorrow but I want to play cricket").1.get? i =
          some ⟨Role.emotional, examCricketEmo, i⟩ ∧
        (generate_debate "I have a math exam tomorrow but I want to play cricket").1.get?
            (i + 1) = some ⟨Role.logical, examCricketLog, i + 1⟩) :=
  ⟨⟨by decide, by decide⟩,
    generate_debate_cricket_reward "I have a math exam tomorrow but I want to play cricket"
      (by decide) (Or.inr (Or.inr (by decide)))⟩
